import Mathlib

/-!
Verification of the resilient fetch-orchestration layer of the scraper
repository.  The Python sources are shallowly embedded: every network
interaction is an input (a `FetchEnv` value describing what each attempt of
each strategy would produce), mutable object attributes become explicit
state records, Python exceptions become `Except`, and `None`/falsy values
become `Option`/emptiness checks mirroring Python truthiness.
-/

/-- Outcome of one low-level HTTP request attempt: either the client raised
(timeout, connection error, ...) or a response with a status code and body
text came back.  Mirrors what `tls_client`/`httpx` hand to the scraper. -/
inductive ReqOutcome where
  | exc : ReqOutcome
  | resp (status : Nat) (text : String) : ReqOutcome
deriving DecidableEq

/-- Environment of one `BaseScraper.fetch` call: the outcome each network
strategy would observe.  `tls i` / `httpx i` give the response of the i-th
attempt of the TLS-client / httpx retry loops; `cs` is the cloudscraper
bypass result (`Except.error` = raised, `some c` = truthy result dict with
content `c`, `none` = falsy result); `browser` is the rendered page source
or a raised error. -/
structure FetchEnv where
  tls : Nat → ReqOutcome
  cs : Except Unit (Option String)
  browser : Except Unit String
  httpx : Nat → ReqOutcome

/-- Python dict `session_cache` as an association list (key, content). -/
def cacheLookup : List (String × String) → String → Option String
  | [], _ => none
  | (k, v) :: rest, key => if k = key then some v else cacheLookup rest key

/-- Dict assignment `session_cache[key] = content`. -/
def cacheInsert : List (String × String) → String → String → List (String × String)
  | [], k, v => [(k, v)]
  | (k', v') :: rest, k, v =>
    if k' = k then (k, v) :: rest else (k', v') :: cacheInsert rest k v

/-- Mutable attributes of a `BaseScraper` instance that `fetch` touches.
`fail_count` is declared by the source but never incremented. -/
structure ScraperState where
  session_cache : List (String × String)
  failed_urls : List String
  success_count : Nat
  fail_count : Nat
  use_browser : Bool
deriving DecidableEq

/-- Key of the in-session response cache.  The source computes
`md5(f"{url}:{method}").hexdigest()`; the digest is represented by the
string it is computed from, which determines it. -/
def cacheKey (url method : String) : String :=
  url ++ ":" ++ method

/-- Python truthiness of an `Optional[str]`: `None` and `""` are falsy. -/
def truthy : Option String → Bool
  | none => false
  | some s => !s.isEmpty

/-- Strategy tags, used to record which cascade strategies a `fetch` call
actually invoked. -/
inductive Strat where
  | tls | cloudscraper | browser | httpx
deriving DecidableEq

/-- Retry loop of `BaseScraper._fetch_tls_client` (`for attempt in
range(5)`), with `b` the remaining attempts and `i` the current attempt
index.  A 200 returns the body (after `success_count += 1`, the last
component); a 403 returns `None` at once; any other status or a raised
exception just moves to the next attempt.  Returns (content, attempts
consumed, success-counter increment). -/
def tlsLoop (env : FetchEnv) : Nat → Nat → Option String × Nat × Nat
  | 0, i => (none, i, 0)
  | b + 1, i =>
    match env.tls i with
    | .exc => tlsLoop env b (i + 1)
    | .resp s t =>
      if s = 200 then (some t, i + 1, 1)
      else if s = 403 then (none, i + 1, 0)
      else tlsLoop env b (i + 1)

/-- `BaseScraper._fetch_tls_client`: at most 5 attempts. -/
def fetchTlsClient (env : FetchEnv) : Option String × Nat × Nat :=
  tlsLoop env 5 0

/-- `BaseScraper._fetch_cloudscraper`: exceptions are swallowed; a truthy
result dict yields its `content` field and bumps the success counter. -/
def fetchCloudscraper (env : FetchEnv) : Option String × Nat :=
  match env.cs with
  | .error _ => (none, 0)
  | .ok none => (none, 0)
  | .ok (some c) => (some c, 1)

/-- `BaseScraper._fetch_browser`: exceptions are swallowed; otherwise the
rendered page source is returned and the success counter bumped. -/
def fetchBrowser (env : FetchEnv) : Option String × Nat :=
  match env.browser with
  | .error _ => (none, 0)
  | .ok c => (some c, 1)

/-- Retry loop that tenacity's `@retry(stop=stop_after_attempt(3))` wraps
around `BaseScraper._fetch_httpx`: a 200 returns the body; any other
status raises `httpx.HTTPError` and any transport error raises, both of
which tenacity turns into another attempt; when the attempts are used up
the exception propagates (`Except.error`). -/
def httpxLoop (env : FetchEnv) : Nat → Nat → Except Unit String
  | 0, _ => .error ()
  | b + 1, i =>
    match env.httpx i with
    | .exc => httpxLoop env b (i + 1)
    | .resp s t => if s = 200 then .ok t else httpxLoop env b (i + 1)

/-- `BaseScraper._fetch_httpx` under its retry decorator: 3 attempts. -/
def fetchHttpx (env : FetchEnv) : Except Unit String :=
  httpxLoop env 3 0

/-- Decidable equality for `Except`, so that concrete fetch outcomes can be
checked by `decide`. -/
instance {ε α : Type} [DecidableEq ε] [DecidableEq α] : DecidableEq (Except ε α) := fun a b =>
  match a, b with
  | .error x, .error y =>
    match decEq x y with
    | isTrue h => isTrue (by rw [h])
    | isFalse h => isFalse (fun hh => h (by cases hh; rfl))
  | .ok x, .ok y =>
    match decEq x y with
    | isTrue h => isTrue (by rw [h])
    | isFalse h => isFalse (fun hh => h (by cases hh; rfl))
  | .error _, .ok _ => isFalse (fun hh => by cases hh)
  | .ok _, .error _ => isFalse (fun hh => by cases hh)

/-- Result of one `fetch` call: the returned value (`Except.error` meaning
an exception reached the caller), the scraper state after the call, and
the list of network strategies that were invoked. -/
structure FetchOut where
  result : Except Unit (Option String)
  state : ScraperState
  attempted : List Strat
deriving DecidableEq

/-- Tail of `BaseScraper.fetch` from `content = await self._fetch_httpx(...)`
on: a raised exception propagates to the caller; truthy content is cached
and returned; otherwise the URL joins `failed_urls` and `None` is
returned. -/
def httpxTail (env : FetchEnv) (st : ScraperState) (url key : String)
    (trace : List Strat) : FetchOut :=
  match fetchHttpx env with
  | .error _ => ⟨.error (), st, trace⟩
  | .ok t =>
    let st' := { st with success_count := st.success_count + 1 }
    if !t.isEmpty then
      ⟨.ok (some t), { st' with session_cache := cacheInsert st'.session_cache key t }, trace⟩
    else
      ⟨.ok none, { st' with failed_urls := st'.failed_urls.insert url }, trace⟩

/-- `BaseScraper.fetch`: cache check, then the cascade TLS-client →
cloudscraper → browser (only with `use_browser`) → httpx; each truthy
result is stored in the session cache and returned. -/
def fetch (env : FetchEnv) (st : ScraperState) (url method : String) : FetchOut :=
  let key := cacheKey url method
  match cacheLookup st.session_cache key with
  | some c => ⟨.ok (some c), st, []⟩
  | none =>
    let t1 := fetchTlsClient env
    let st1 := { st with success_count := st.success_count + t1.2.2 }
    if truthy t1.1 then
      ⟨.ok t1.1, { st1 with session_cache := cacheInsert st1.session_cache key (t1.1.getD "") }, [.tls]⟩
    else
      let t2 := fetchCloudscraper env
      let st2 := { st1 with success_count := st1.success_count + t2.2 }
      if truthy t2.1 then
        ⟨.ok t2.1, { st2 with session_cache := cacheInsert st2.session_cache key (t2.1.getD "") },
          [.tls, .cloudscraper]⟩
      else if st.use_browser then
        let t3 := fetchBrowser env
        let st3 := { st2 with success_count := st2.success_count + t3.2 }
        if truthy t3.1 then
          ⟨.ok t3.1, { st3 with session_cache := cacheInsert st3.session_cache key (t3.1.getD "") },
            [.tls, .cloudscraper, .browser]⟩
        else
          httpxTail env st3 url key [.tls, .cloudscraper, .browser, .httpx]
      else
        httpxTail env st2 url key [.tls, .cloudscraper, .httpx]

/-- `utils.antidetect.ProxyRotator` attributes.  `failed_proxies` is a set,
represented by a duplicate-free membership list. -/
structure ProxyRotator where
  proxies : List String
  working_proxies : List String
  failed_proxies : List String
  current_index : Nat
deriving DecidableEq

/-- `ProxyRotator.__init__`. -/
def mkRotator (proxies : List String) : ProxyRotator :=
  ⟨proxies, [], [], 0⟩

/-- `ProxyRotator.test_proxies`: every configured candidate is health
checked (`tf` gives each check's outcome); `asyncio.gather` returns the
results in task order, so the passing candidates become the working
rotation in configuration order.  `failed_proxies` and `current_index`
are left untouched. -/
def test_proxies (tf : String → Bool) (r : ProxyRotator) : ProxyRotator :=
  { r with working_proxies := r.proxies.filter tf }

/-- `ProxyRotator.mark_failed`: add to the failed set and remove the first
matching entry from the working rotation. -/
def mark_failed (p : String) (r : ProxyRotator) : ProxyRotator :=
  { r with failed_proxies := r.failed_proxies.insert p,
           working_proxies := r.working_proxies.erase p }

/-- `ProxyRotator.get_proxy`: when the working rotation is empty, run a
health-check pass first; if it is still empty return `None`; otherwise
hand out `working_proxies[current_index]` (an out-of-range index raises
`IndexError`, the `Except.error` case) and advance the round-robin
index. -/
def get_proxy (tf : String → Bool) (r : ProxyRotator) :
    Except Unit (Option String) × ProxyRotator :=
  let r1 := if r.working_proxies.isEmpty then test_proxies tf r else r
  if r1.working_proxies.isEmpty then (.ok none, r1)
  else
    match r1.working_proxies.get? r1.current_index with
    | some p =>
      (.ok (some p),
        { r1 with current_index := (r1.current_index + 1) % r1.working_proxies.length })
    | none => (.error (), r1)

/-- Row of the SQLite `cache` table (`url TEXT PRIMARY KEY, content, expiry`). -/
structure CacheRow where
  url : String
  content : String
  expiry : Nat
deriving DecidableEq

/-- `SQLiteStorage.cache_response`: `INSERT OR REPLACE INTO cache` keyed on
the `url` primary key alone — any existing row for the URL is replaced by
a fresh one whose expiry lies `expiry_hours` ahead of now. -/
def cache_response (rows : List CacheRow) (url content : String)
    (expiry_hours now : Nat) : List CacheRow :=
  rows.filter (fun row => row.url ≠ url) ++ [⟨url, content, now + expiry_hours⟩]

/-- `SQLiteStorage.get_cached_response`: `SELECT content FROM cache WHERE
url = ? AND expiry > datetime('now')`. -/
def get_cached_response (rows : List CacheRow) (url : String) (now : Nat) :
    Option String :=
  match rows.find? (fun row => row.url == url && decide (now < row.expiry)) with
  | some row => some row.content
  | none => none

/-- `SQLiteStorage.is_processed`: `SELECT 1 FROM processed_urls WHERE url = ?`. -/
def is_processed : List String → String → Bool
  | [], _ => false
  | u :: rest, url => if u = url then true else is_processed rest url

/-- `SQLiteStorage.mark_processed`: `INSERT OR IGNORE INTO processed_urls`;
the row is appended only when the primary key is not present yet. -/
def mark_processed (db : List String) (url : String) : List String :=
  if is_processed db url then db else db ++ [url]

/-- `BaseScraper.batch_scrape`'s inner `scrape_with_semaphore`: a raised
exception is swallowed and turned into `None`. -/
def scrape_with_semaphore (scrape : String → Except Unit (Option String))
    (url : String) : Option String :=
  match scrape url with
  | .error _ => none
  | .ok r => r

/-- `BaseScraper.batch_scrape`: gather one result per URL in input order,
then keep only the non-`None` ones (`valid_results`). -/
def batch_scrape (scrape : String → Except Unit (Option String))
    (urls : List String) : List String :=
  (urls.map (scrape_with_semaphore scrape)).filterMap id

/-- Boolean prefix test on character lists, mirroring how Python's
`str.find`/`in` compare a pattern against a position of the text. -/
def listStarts : List Char → List Char → Bool
  | [], _ => true
  | _ :: _, [] => false
  | a :: pa, b :: lb => if a = b then listStarts pa lb else false

/-- Python's `str.find`: index of the first occurrence of `pat`, if any. -/
def findSub (pat : List Char) : List Char → Option Nat
  | [] => if listStarts pat [] then some 0 else none
  | c :: rest =>
    if listStarts pat (c :: rest) then some 0
    else (findSub pat rest).map (fun n => n + 1)

/-- The literal `"<think>"`. -/
def thinkOpen : List Char := ['<', 't', 'h', 'i', 'n', 'k', '>']

/-- The literal `"</think>"`. -/
def thinkClose : List Char := ['<', '/', 't', 'h', 'i', 'n', 'k', '>']

/-- The `<think>` fallback of `LLM.fw_basic_call`: when both tags occur in
the content, everything up to and including the first `"</think>"` is cut
away and leading newlines are stripped from the remainder
(`content[end_idx + len("</think>"):].lstrip("\n")`); otherwise the
content is returned unchanged. -/
def stripThinkFallback (content : List Char) : List Char :=
  match findSub thinkOpen content, findSub thinkClose content with
  | some _, some e =>
    (content.drop (e + thinkClose.length)).dropWhile (fun c => c == '\n')
  | _, _ => content

/-- Non-streaming answer extraction of `LLM.fw_basic_call`: the fallback
runs only when the API supplied no separate `reasoning_content`. -/
def fwVisibleContent (reasoning_content content : List Char) : List Char :=
  if reasoning_content.isEmpty then stripThinkFallback content else content

/-- Streaming answer extraction of `LLM.fw_basic_call`: the content chunks
are joined and the same fallback runs when no reasoning chunk arrived. -/
def fwStreamVisible (reasoningChunks contentChunks : List (List Char)) : List Char :=
  let combined := contentChunks.flatten
  if reasoningChunks.isEmpty then stripThinkFallback combined else combined

/-- An attempt outcome on which the TLS-client loop neither returns a body
(status 200) nor stops for a challenge (status 403): an exception or any
other status.  Such an attempt just consumes one retry. -/
def tlsAttemptFails : ReqOutcome → Bool
  | .exc => true
  | .resp s _ => !(s == 200) && !(s == 403)

/-- A scrape function on which URL "b" always raises and URL "d" returns
`None`, while the other URLs succeed. -/
def scrapeSibling : String → Except Unit (Option String) :=
  fun u =>
    if u = "b" then .error ()
    else if u = "d" then .ok none
    else .ok (some (u ++ "!"))

/-- A freshly constructed scraper instance without browser fetching. -/
def stEmpty : ScraperState := ⟨[], [], 0, 0, false⟩

/-- Environment where every TLS attempt raises, the cloudscraper bypass
raises, and every httpx attempt answers 500: the retry wrapper around the
httpx strategy ends up re-raising. -/
def envRaising : FetchEnv := ⟨fun _ => .exc, .error (), .error (), fun _ => .resp 500 "err"⟩

/-- Environment where every TLS attempt raises, the cloudscraper bypass
raises, and httpx answers 200 with an empty body: the cascade ends without
a raise but with falsy content. -/
def envEmpty200 : FetchEnv := ⟨fun _ => .exc, .error (), .error (), fun _ => .resp 200 ""⟩

/-! ## Helper lemmas -/

lemma cacheLookup_insert (c : List (String × String)) (k v : String) :
    cacheLookup (cacheInsert c k v) k = some v := by
  induction c with
  | nil => simp [cacheInsert, cacheLookup]
  | cons kv rest ih =>
    obtain ⟨k', v'⟩ := kv
    by_cases h : k' = k
    · simp [cacheInsert, cacheLookup, h]
    · simp [cacheInsert, cacheLookup, h, ih]

lemma fetch_of_cache_hit (env : FetchEnv) (st : ScraperState) (url method body : String)
    (h : cacheLookup st.session_cache (cacheKey url method) = some body) :
    fetch env st url method = ⟨.ok (some body), st, []⟩ := by
  unfold fetch
  simp [h]

/-- CLAIM C2: with an entry in the in-session cache under the (url, method)
key, `fetch` returns the cached body at once: the state is untouched and no
network strategy (TLS client, cloudscraper, browser, httpx) is invoked,
whatever the network would have answered. -/
theorem fetch_cache_hit_no_network (env : FetchEnv) (st : ScraperState)
    (url method body : String)
    (h : cacheLookup st.session_cache (cacheKey url method) = some body) :
    fetch env st url method = ⟨.ok (some body), st, []⟩ :=
  fetch_of_cache_hit env st url method body h

/-- Witness for C2 at a concrete cached state. -/
theorem fetch_cache_hit_no_network_witness :
    fetch ⟨fun _ => .exc, .error (), .error (), fun _ => .exc⟩
        ⟨[(cacheKey "u" "GET", "B")], [], 0, 0, false⟩ "u" "GET" =
      ⟨.ok (some "B"), ⟨[(cacheKey "u" "GET", "B")], [], 0, 0, false⟩, []⟩ :=
  fetch_cache_hit_no_network _ _ "u" "GET" "B" (by decide)

lemma is_processed_append_self (db : List String) (url : String) :
    is_processed (db ++ [url]) url = true := by
  induction db with
  | nil => simp [is_processed]
  | cons u rest ih =>
    by_cases h : u = url <;> simp [is_processed, h, ih]

lemma mark_processed_of_processed (db : List String) (url : String)
    (h : is_processed db url = true) : mark_processed db url = db := by
  simp [mark_processed, h]

/-- CLAIM C7: `mark_processed` is idempotent — re-marking a URL leaves the
processed-URL table exactly as it was after the first call, and
`is_processed` stays true. -/
theorem mark_processed_idempotent (db : List String) (url : String) :
    mark_processed (mark_processed db url) url = mark_processed db url ∧
    is_processed (mark_processed db url) url = true := by
  have h : is_processed (mark_processed db url) url = true := by
    unfold mark_processed
    split
    · assumption
    · exact is_processed_append_self db url
  exact ⟨mark_processed_of_processed _ _ h, h⟩

/-- CLAIM C9: when the working rotation is empty and the health-check pass
finds no live candidate, `get_proxy` returns `None` (it neither raises nor
hands out an address), so the fetch strategies proceed proxyless. -/
theorem get_proxy_none_when_all_fail (r : ProxyRotator) (tf : String → Bool)
    (h1 : r.working_proxies = []) (h2 : ∀ p ∈ r.proxies, tf p = false) :
    (get_proxy tf r).1 = .ok none := by
  have hf : r.proxies.filter tf = [] :=
    List.filter_eq_nil_iff.mpr (by intro a ha; simp [h2 a ha])
  simp [get_proxy, test_proxies, h1, hf]

/-- Witness for C9: one configured proxy that fails its health check. -/
theorem get_proxy_none_when_all_fail_witness :
    (get_proxy (fun _ => false) (mkRotator ["http://1.2.3.4:8080"])).1 = .ok none :=
  get_proxy_none_when_all_fail (mkRotator ["http://1.2.3.4:8080"]) (fun _ => false)
    rfl (by decide)

/-- CLAIM C5: an address handed to `mark_failed` leaves the working
rotation at once, and a later `get_proxy` can hand it out again only after
a fresh health-check pass has re-tested it (which `get_proxy` runs only
when the working rotation is empty) and the address passed the test. -/
theorem mark_failed_not_retried (r : ProxyRotator) (p : String)
    (hnd : r.working_proxies.Nodup) :
    p ∉ (mark_failed p r).working_proxies ∧
    ∀ (s : ProxyRotator) (tf : String → Bool), p ∉ s.working_proxies →
      (get_proxy tf s).1 = .ok (some p) → s.working_proxies = [] ∧ tf p = true := by
  constructor
  · simpa [mark_failed] using hnd.not_mem_erase
  · intro s tf hp hres
    cases hwl : s.working_proxies with
    | nil =>
      refine ⟨rfl, ?_⟩
      by_cases hf : (s.proxies.filter tf).isEmpty
      · simp [get_proxy, hwl, test_proxies, hf] at hres
      · simp [get_proxy, hwl, test_proxies, hf] at hres
        cases hg : (List.filter tf s.proxies)[s.current_index]? with
        | none => rw [hg] at hres; simp at hres
        | some q =>
          rw [hg] at hres
          simp at hres
          have hq : q ∈ s.proxies.filter tf := List.getElem?_mem hg
          rw [hres] at hq
          exact (List.mem_filter.mp hq).2
    | cons q rest =>
      exfalso
      have hne : ¬ s.working_proxies.isEmpty := by simp [hwl]
      simp [get_proxy, hne] at hres
      cases hg : s.working_proxies[s.current_index]? with
      | none => rw [hg] at hres; simp at hres
      | some q' =>
        rw [hg] at hres
        simp at hres
        have hq : q' ∈ s.working_proxies := List.getElem?_mem hg
        rw [hres] at hq
        exact hp hq

/-- Witness for C5: mark "a" failed in a two-proxy rotation, and hand out
"a" again only through an explicit health-check pass on an
empty-working-set rotator. -/
theorem mark_failed_not_retried_witness :
    "a" ∉ (mark_failed "a" ⟨["a", "b"], ["a", "b"], [], 0⟩).working_proxies ∧
    ((⟨["a"], [], [], 0⟩ : ProxyRotator).working_proxies = [] ∧
      (fun _ => true) "a" = true) :=
  ⟨(mark_failed_not_retried ⟨["a", "b"], ["a", "b"], [], 0⟩ "a" (by decide)).1,
   (mark_failed_not_retried ⟨["a", "b"], ["a", "b"], [], 0⟩ "a" (by decide)).2
     ⟨["a"], [], [], 0⟩ (fun _ => true) (by decide) (by decide)⟩

lemma httpxTail_result_some_cached (env : FetchEnv) (st : ScraperState)
    (url key : String) (tr : List Strat) (body : String)
    (h : (httpxTail env st url key tr).result = .ok (some body)) :
    cacheLookup (httpxTail env st url key tr).state.session_cache key = some body := by
  cases hh : fetchHttpx env with
  | error e => simp [httpxTail, hh] at h
  | ok t =>
    by_cases ht : t.isEmpty
    · simp [httpxTail, hh, ht] at h
    · simp [httpxTail, hh, ht] at h ⊢
      rw [← h]
      exact cacheLookup_insert _ _ _

lemma truthy_eq_some (o : Option String) (h : truthy o = true) : o = some (o.getD "") := by
  cases o with
  | none => cases h
  | some s => rfl

lemma fetch_result_some_cached (env : FetchEnv) (st : ScraperState)
    (url method body : String)
    (h : (fetch env st url method).result = .ok (some body)) :
    cacheLookup (fetch env st url method).state.session_cache (cacheKey url method) =
      some body := by
  simp only [fetch] at h ⊢
  split at h
  next c heq =>
    replace h : c = body := by simpa using h
    subst h
    simpa using heq
  next heq =>
    by_cases h1 : truthy (fetchTlsClient env).1
    · simp only [h1, if_true] at h ⊢
      simp at h ⊢
      rw [truthy_eq_some _ h1] at h
      simp at h
      rw [← h]
      exact cacheLookup_insert _ _ _
    · simp only [h1, if_false] at h ⊢
      by_cases h2 : truthy (fetchCloudscraper env).1
      · simp only [h2, if_true] at h ⊢
        simp at h ⊢
        rw [truthy_eq_some _ h2] at h
        simp at h
        rw [← h]
        exact cacheLookup_insert _ _ _
      · simp only [h2, if_false] at h ⊢
        by_cases hb : st.use_browser
        · simp only [hb, if_true] at h ⊢
          by_cases h3 : truthy (fetchBrowser env).1
          · simp only [h3, if_true] at h ⊢
            simp at h ⊢
            rw [truthy_eq_some _ h3] at h
            simp at h
            rw [← h]
            exact cacheLookup_insert _ _ _
          · simp only [h3, if_false] at h ⊢
            exact httpxTail_result_some_cached _ _ _ _ _ _ h
        · simp only [hb, if_false] at h ⊢
          exact httpxTail_result_some_cached _ _ _ _ _ _ h

/-- CLAIM C10 (implicit): the in-session cache never expires, so once a
`fetch (url, method)` call on an instance has returned a body, every later
`fetch (url, method)` on the resulting state returns that exact body with
no network strategy invoked and no state change, whatever the network
would answer now. -/
theorem fetch_idempotent_after_success (env env' : FetchEnv) (st : ScraperState)
    (url method body : String)
    (h : (fetch env st url method).result = .ok (some body)) :
    fetch env' (fetch env st url method).state url method =
      ⟨.ok (some body), (fetch env st url method).state, []⟩ :=
  fetch_of_cache_hit env' _ url method body (fetch_result_some_cached env st url method body h)

/-- Witness for C10: first call succeeds via the TLS client; the second
call replays the body from cache against a dead network. -/
theorem fetch_idempotent_after_success_witness :
    fetch ⟨fun _ => .exc, .error (), .error (), fun _ => .exc⟩
        (fetch ⟨fun _ => .resp 200 "B", .ok none, .error (), fun _ => .exc⟩
          ⟨[], [], 0, 0, false⟩ "u" "GET").state "u" "GET" =
      ⟨.ok (some "B"),
        (fetch ⟨fun _ => .resp 200 "B", .ok none, .error (), fun _ => .exc⟩
          ⟨[], [], 0, 0, false⟩ "u" "GET").state, []⟩ :=
  fetch_idempotent_after_success _ _ ⟨[], [], 0, 0, false⟩ "u" "GET" "B" (by decide)

lemma tlsLoop_skip (env : FetchEnv) :
    ∀ (k b i : Nat), k < b →
      (∀ j, j < k → tlsAttemptFails (env.tls (i + j)) = true) →
      (∃ t, env.tls (i + k) = .resp 403 t) →
      tlsLoop env b i = (none, i + k + 1, 0) := by
  intro k
  induction k with
  | zero =>
    intro b i hb hpre hex
    obtain ⟨t, ht⟩ := hex
    cases b with
    | zero => omega
    | succ b' =>
      simp only [Nat.add_zero] at ht
      simp [tlsLoop, ht]
  | succ k ih =>
    intro b i hb hpre hex
    cases b with
    | zero => omega
    | succ b' =>
      have h0 := hpre 0 (Nat.succ_pos k)
      simp only [Nat.add_zero] at h0
      have hrec : tlsLoop env b' (i + 1) = (none, i + 1 + k + 1, 0) := by
        apply ih b' (i + 1) (by omega)
        · intro j hj
          have := hpre (j + 1) (by omega)
          simpa [Nat.add_assoc, Nat.add_comm 1 j] using this
        · obtain ⟨t, ht⟩ := hex
          exact ⟨t, by rw [show i + 1 + k = i + (k + 1) by omega]; exact ht⟩
      cases ho : env.tls i with
      | exc =>
        rw [show i + (k + 1) + 1 = i + 1 + k + 1 by omega]
        simpa [tlsLoop, ho] using hrec
      | resp s t =>
        rw [ho] at h0
        simp [tlsAttemptFails] at h0
        rw [show i + (k + 1) + 1 = i + 1 + k + 1 by omega]
        simpa [tlsLoop, ho, h0.1, h0.2] using hrec

lemma httpxTail_attempted (env : FetchEnv) (st : ScraperState)
    (url key : String) (tr : List Strat) :
    (httpxTail env st url key tr).attempted = tr := by
  cases hh : fetchHttpx env with
  | error e => simp [httpxTail, hh]
  | ok t =>
    by_cases ht : t.isEmpty <;> simp [httpxTail, hh, ht]

/-- CLAIM C3: when attempt `k` of the TLS-client strategy answers HTTP 403
(the earlier attempts having failed without a 200 or 403), the strategy
stops right there — `k + 1` of its 5 attempts consumed, no body — and the
orchestrator's very next strategy is the cloudscraper challenge bypass. -/
theorem tls_403_short_circuits (env : FetchEnv) (st : ScraperState)
    (url method : String) (k : Nat) (t : String)
    (hk : k < 5)
    (hpre : ∀ j, j < k → tlsAttemptFails (env.tls j) = true)
    (h403 : env.tls k = .resp 403 t)
    (hmiss : cacheLookup st.session_cache (cacheKey url method) = none) :
    fetchTlsClient env = (none, k + 1, 0) ∧
    ∃ rest, (fetch env st url method).attempted = .tls :: .cloudscraper :: rest := by
  have h1 : fetchTlsClient env = (none, k + 1, 0) := by
    have := tlsLoop_skip env k 5 0 hk (by simpa using hpre) ⟨t, by simpa using h403⟩
    simpa [fetchTlsClient] using this
  refine ⟨h1, ?_⟩
  have hfalsy : truthy (fetchTlsClient env).1 = false := by rw [h1]; rfl
  simp only [fetch, hmiss, hfalsy, Bool.false_eq_true, if_false]
  by_cases h2 : truthy (fetchCloudscraper env).1
  · simp only [h2, if_true]
    exact ⟨[], rfl⟩
  · simp only [h2, Bool.false_eq_true, if_false]
    by_cases hb : st.use_browser
    · simp only [hb, if_true]
      by_cases h3 : truthy (fetchBrowser env).1
      · simp only [h3, if_true]
        exact ⟨[.browser], rfl⟩
      · simp only [h3, Bool.false_eq_true, if_false]
        exact ⟨[.browser, .httpx], httpxTail_attempted _ _ _ _ _⟩
    · simp only [hb, Bool.false_eq_true, if_false]
      exact ⟨[.httpx], httpxTail_attempted _ _ _ _ _⟩

/-- Witness for C3: a 403 on the very first TLS attempt. -/
theorem tls_403_short_circuits_witness :
    fetchTlsClient ⟨fun _ => .resp 403 "denied", .ok (some "Y"), .error (), fun _ => .exc⟩ =
      (none, 1, 0) ∧
    ∃ rest,
      (fetch ⟨fun _ => .resp 403 "denied", .ok (some "Y"), .error (), fun _ => .exc⟩
        ⟨[], [], 0, 0, false⟩ "u" "GET").attempted = .tls :: .cloudscraper :: rest :=
  tls_403_short_circuits _ ⟨[], [], 0, 0, false⟩ "u" "GET" 0 "denied" (by decide)
    (fun j hj => absurd hj (Nat.not_lt_zero j)) rfl rfl

lemma httpxTail_error_cases (env : FetchEnv) (st : ScraperState)
    (url key : String) (tr : List Strat)
    (h : (httpxTail env st url key tr).result = .error ()) :
    (httpxTail env st url key tr).state.failed_urls = st.failed_urls ∧
    fetchHttpx env = .error () := by
  cases hh : fetchHttpx env with
  | error e => simp [httpxTail, hh]
  | ok t =>
    exfalso
    by_cases ht : t.isEmpty <;> simp [httpxTail, hh, ht] at h

lemma httpxTail_none_cases (env : FetchEnv) (st : ScraperState)
    (url key : String) (tr : List Strat)
    (h : (httpxTail env st url key tr).result = .ok none) :
    url ∈ (httpxTail env st url key tr).state.failed_urls := by
  cases hh : fetchHttpx env with
  | error e => simp [httpxTail, hh] at h
  | ok t =>
    by_cases ht : t.isEmpty
    · simp [httpxTail, hh, ht, List.mem_insert_self]
    · simp [httpxTail, hh, ht] at h

lemma httpxTail_error_of (env : FetchEnv) (st : ScraperState)
    (url key : String) (tr : List Strat) (hh : fetchHttpx env = .error ()) :
    (httpxTail env st url key tr).result = .error () := by
  simp [httpxTail, hh]

/-- CLAIM C1 as amended: `fetch` swallows failures of the TLS-client,
cloudscraper and browser strategies, but an exception is raised to the
caller exactly when the final httpx strategy exhausts its retry attempts;
in that case the URL is NOT added to the failed-URL set.  The
failed-set-plus-`None` outcome arises only when the cascade ends without a
raise (a 200 with empty body on the last strategy). -/
theorem fetch_raise_behavior (env : FetchEnv) (st : ScraperState) (url method : String) :
    ((fetch env st url method).result = .error () →
      (fetch env st url method).state.failed_urls = st.failed_urls ∧
      fetchHttpx env = .error ()) ∧
    ((fetch env st url method).result = .ok none →
      url ∈ (fetch env st url method).state.failed_urls) ∧
    (cacheLookup st.session_cache (cacheKey url method) = none →
      truthy (fetchTlsClient env).1 = false →
      truthy (fetchCloudscraper env).1 = false →
      truthy (fetchBrowser env).1 = false →
      fetchHttpx env = .error () →
      (fetch env st url method).result = .error ()) := by
  simp only [fetch]
  split
  next c heq =>
    refine ⟨by simp, by simp, ?_⟩
    intro hmiss
    rw [heq] at hmiss
    cases hmiss
  next heq =>
    by_cases h1 : truthy (fetchTlsClient env).1
    · simp only [h1, if_true]
      refine ⟨?_, ?_, ?_⟩
      · intro habs
        exact Except.noConfusion habs
      · intro habs
        injection habs with hx
        rw [hx] at h1
        simp [truthy] at h1
      · intro _ h1'
        exact absurd h1' (by decide)
    · simp only [h1, Bool.false_eq_true, if_false]
      by_cases h2 : truthy (fetchCloudscraper env).1
      · simp only [h2, if_true]
        refine ⟨?_, ?_, ?_⟩
        · intro habs
          exact Except.noConfusion habs
        · intro habs
          injection habs with hx
          rw [hx] at h2
          simp [truthy] at h2
        · intro _ _ h2'
          exact absurd h2' (by decide)
      · simp only [h2, Bool.false_eq_true, if_false]
        by_cases hb : st.use_browser
        · simp only [hb, if_true]
          by_cases h3 : truthy (fetchBrowser env).1
          · simp only [h3, if_true]
            refine ⟨?_, ?_, ?_⟩
            · intro habs
              exact Except.noConfusion habs
            · intro habs
              injection habs with hx
              rw [hx] at h3
              simp [truthy] at h3
            · intro _ _ _ h3'
              exact absurd h3' (by decide)
          · simp only [h3, Bool.false_eq_true, if_false]
            exact ⟨fun h => httpxTail_error_cases _ _ _ _ _ h,
                   fun h => httpxTail_none_cases _ _ _ _ _ h,
                   fun _ _ _ _ hh => httpxTail_error_of _ _ _ _ _ hh⟩
        · simp only [hb, Bool.false_eq_true, if_false]
          exact ⟨fun h => httpxTail_error_cases _ _ _ _ _ h,
                 fun h => httpxTail_none_cases _ _ _ _ _ h,
                 fun _ _ _ _ hh => httpxTail_error_of _ _ _ _ _ hh⟩

/-- Counterexample to C1 as stated: with the TLS client raising on every
attempt, the cloudscraper bypass raising, and httpx answering 500 on each
of its 3 attempts, `fetch` raises to its caller (the retry wrapper's
exception propagates) instead of returning the exhausted signal, and the
URL is never added to the failed-URL set. -/
theorem fetch_raises_counterexample :
    (fetch envRaising stEmpty "http://example.com/a" "GET").result = .error () ∧
    (fetch envRaising stEmpty "http://example.com/a" "GET").state.failed_urls = [] :=
  ⟨rfl, rfl⟩

/-- Witness for the amended C1: the raising environment exercises the
raise conjuncts, and the empty-200 environment exercises the
exhausted-signal conjunct. -/
theorem fetch_raise_behavior_witness :
    ((fetch envRaising stEmpty "u" "GET").state.failed_urls = stEmpty.failed_urls ∧
      fetchHttpx envRaising = .error ()) ∧
    "u" ∈ (fetch envEmpty200 stEmpty "u" "GET").state.failed_urls ∧
    (fetch envRaising stEmpty "u" "GET").result = .error () :=
  ⟨(fetch_raise_behavior envRaising stEmpty "u" "GET").1 rfl,
   (fetch_raise_behavior envEmpty200 stEmpty "u" "GET").2.1 rfl,
   (fetch_raise_behavior envRaising stEmpty "u" "GET").2.2 rfl rfl rfl rfl rfl⟩

/-- Counterexample to C4 as stated: with "b" always failing,
`batch_scrape` returns only the two successful results — the failing URL
is dropped outright rather than reported as an explicit absent entry, so
the output has no entry per input URL and no (url, result) pairing. -/
theorem batch_scrape_drops_failures :
    batch_scrape scrapeSibling ["a", "b", "c"] = ["a!", "c!"] ∧
    (batch_scrape scrapeSibling ["a", "b", "c"]).length ≠
      (["a", "b", "c"] : List String).length := by
  constructor
  · rfl
  · decide

/-- CLAIM C4 as amended: `batch_scrape` returns the successful results
only, in input order — the list decomposes URL by URL, a URL whose scrape
succeeds contributes exactly its own result, and a URL that raises or
returns `None` contributes nothing (it is dropped, not reported); in
particular one URL's failure cannot change its siblings' contributions. -/
theorem batch_scrape_amended (scrape : String → Except Unit (Option String)) :
    (∀ l₁ l₂, batch_scrape scrape (l₁ ++ l₂) =
      batch_scrape scrape l₁ ++ batch_scrape scrape l₂) ∧
    (∀ u b, scrape u = .ok (some b) → batch_scrape scrape [u] = [b]) ∧
    (∀ u, scrape u = .error () → batch_scrape scrape [u] = []) ∧
    (∀ u, scrape u = .ok none → batch_scrape scrape [u] = []) := by
  refine ⟨?_, ?_, ?_, ?_⟩
  · intro l₁ l₂
    simp [batch_scrape]
  · intro u b h
    simp [batch_scrape, scrape_with_semaphore, h]
  · intro u h
    simp [batch_scrape, scrape_with_semaphore, h]
  · intro u h
    simp [batch_scrape, scrape_with_semaphore, h]

/-- Witness for the amended C4 on the counterexample inputs. -/
theorem batch_scrape_amended_witness :
    batch_scrape scrapeSibling (["a", "b"] ++ ["c"]) =
      batch_scrape scrapeSibling ["a", "b"] ++ batch_scrape scrapeSibling ["c"] ∧
    batch_scrape scrapeSibling ["a"] = ["a!"] ∧
    batch_scrape scrapeSibling ["b"] = [] ∧
    batch_scrape scrapeSibling ["d"] = [] :=
  ⟨(batch_scrape_amended scrapeSibling).1 ["a", "b"] ["c"],
   (batch_scrape_amended scrapeSibling).2.1 "a" "a!" (by decide),
   (batch_scrape_amended scrapeSibling).2.2.1 "b" (by decide),
   (batch_scrape_amended scrapeSibling).2.2.2 "d" (by decide)⟩

/-- Counterexample to C6 as stated: the durable cache table is keyed on
the URL alone (`url TEXT PRIMARY KEY`, no method column), so caching a
response during a GET and then one during a POST of the same URL leaves a
single row — the later body replaces the earlier one and is served for
either method. -/
theorem cache_table_method_collision :
    cache_response (cache_response [] "https://x.test/p" "GETBODY" 24 0)
        "https://x.test/p" "POSTBODY" 24 0 =
      [⟨"https://x.test/p", "POSTBODY", 24⟩] ∧
    get_cached_response
        (cache_response (cache_response [] "https://x.test/p" "GETBODY" 24 0)
          "https://x.test/p" "POSTBODY" 24 0) "https://x.test/p" 1 =
      some "POSTBODY" := by
  constructor
  · rfl
  · rfl

/-- CLAIM C6 as amended: only the in-session cache keys on (url, method) —
its key determines the method, so a GET and a POST to the same URL use
distinct keys; the durable cache table keys on the URL alone: after any
store for a URL exactly one row for that URL remains, holding the latest
body, whatever method produced it. -/
theorem cache_keys_amended :
    (∀ u m₁ m₂ : String, cacheKey u m₁ = cacheKey u m₂ → m₁ = m₂) ∧
    (∀ (rows : List CacheRow) (u c : String) (h now : Nat),
      (cache_response rows u c h now).filter (fun row => row.url == u) =
        [⟨u, c, now + h⟩]) := by
  constructor
  · intro u m₁ m₂ h
    have hd : (u ++ ":").data ++ m₁.data = (u ++ ":").data ++ m₂.data :=
      congrArg String.data h
    exact String.ext (List.append_cancel_left hd)
  · intro rows u c h now
    simp only [cache_response, List.filter_append]
    have h1 : (rows.filter (fun row => row.url ≠ u)).filter
        (fun row => row.url == u) = [] := by
      rw [List.filter_eq_nil_iff]
      intro row hrow
      have := (List.mem_filter.mp hrow).2
      simp at this ⊢
      exact this
    rw [h1]
    simp

/-- Witness for the amended C6: a concrete key pair and a concrete store. -/
theorem cache_keys_amended_witness :
    ("GET" : String) = "GET" ∧
    (cache_response [] "u" "B" 24 0).filter (fun row => row.url == "u") =
      [⟨"u", "B", 24⟩] :=
  ⟨cache_keys_amended.1 "u" "GET" "GET" rfl,
   cache_keys_amended.2 [] "u" "B" 24 0⟩

lemma listStarts_append (pat t : List Char) : listStarts pat (pat ++ t) = true := by
  induction pat with
  | nil => rfl
  | cons a pa ih => simp [listStarts, ih]

lemma exists_of_listStarts (pat : List Char) :
    ∀ l, listStarts pat l = true → ∃ t, l = pat ++ t := by
  induction pat with
  | nil => exact fun l _ => ⟨l, rfl⟩
  | cons a pa ih =>
    intro l h
    cases l with
    | nil => simp [listStarts] at h
    | cons b lb =>
      by_cases hab : a = b
      · subst hab
        simp only [listStarts, if_pos rfl] at h
        obtain ⟨t, ht⟩ := ih lb h
        exact ⟨t, by simp [ht]⟩
      · simp [listStarts, hab] at h

lemma listStarts_head (c d : Char) (q l : List Char)
    (h : listStarts (c :: q) (d :: l) = true) : c = d := by
  by_cases hcd : c = d
  · exact hcd
  · simp [listStarts, hcd] at h

lemma listStarts_tail (c d : Char) (q l : List Char)
    (h : listStarts (c :: q) (d :: l) = true) : listStarts q l = true := by
  by_cases hcd : c = d
  · simpa [listStarts, hcd] using h
  · simp [listStarts, hcd] at h

lemma findSub_none_no_occ (pat : List Char) :
    ∀ l, findSub pat l = none → ∀ i, listStarts pat (l.drop i) = false := by
  intro l
  induction l with
  | nil =>
    intro h i
    simp only [List.drop_nil]
    unfold findSub at h
    by_cases hs : listStarts pat [] = true
    · rw [if_pos hs] at h; cases h
    · simpa using hs
  | cons c rest ih =>
    intro h i
    unfold findSub at h
    by_cases hs : listStarts pat (c :: rest) = true
    · rw [if_pos hs] at h; cases h
    · rw [if_neg hs] at h
      cases i with
      | zero => simpa using hs
      | succ i' =>
        have hrest : findSub pat rest = none := by
          cases hfr : findSub pat rest with
          | none => rfl
          | some n => rw [hfr] at h; cases h
        simpa using ih hrest i'

lemma findSub_cons (pat : List Char) (c : Char) (rest : List Char) :
    findSub pat (c :: rest) =
      if listStarts pat (c :: rest) then some 0
      else (findSub pat rest).map (fun n => n + 1) := by
  conv_lhs => unfold findSub

lemma findSub_append_shift (pat b : List Char) :
    ∀ a : List Char,
      (∀ i, i < a.length → listStarts pat ((a ++ b).drop i) = false) →
      findSub pat (a ++ b) = (findSub pat b).map (fun n => n + a.length) := by
  intro a
  induction a with
  | nil =>
    intro _
    simp only [List.nil_append]
    cases hx : findSub pat b <;> simp
  | cons c a' ih =>
    intro h
    have h0 : listStarts pat (c :: (a' ++ b)) = false := by
      simpa using h 0 (Nat.succ_pos _)
    show findSub pat (c :: (a' ++ b)) = _
    rw [findSub_cons]
    rw [if_neg (by simp [h0])]
    have hrec := ih (fun i hi => by simpa using h (i + 1) (by simpa using hi))
    rw [hrec]
    cases hx : findSub pat b <;>
      simp [Nat.add_assoc, Nat.add_comm 1 a'.length]

lemma findSub_self (pat t : List Char) (h : pat ≠ []) :
    findSub pat (pat ++ t) = some 0 := by
  cases pat with
  | nil => exact absurd rfl h
  | cons a pa =>
    show findSub (a :: pa) (a :: (pa ++ t)) = some 0
    have hs : listStarts (a :: pa) (a :: (pa ++ t)) = true := by
      simpa using listStarts_append (a :: pa) t
    unfold findSub
    rw [if_pos hs]

lemma starts_take_of_le (q x y : List Char) (hle : q.length ≤ x.length)
    (h : listStarts q (x ++ y) = true) : listStarts q x = true := by
  obtain ⟨t, ht⟩ := exists_of_listStarts q (x ++ y) h
  have htake : x.take q.length = q := by
    have h1 : (x ++ y).take q.length = x.take q.length :=
      List.take_append_of_le_length hle
    have h2 : (x ++ y).take q.length = q := by rw [ht]; exact List.take_left q t
    rw [h1] at h2
    exact h2
  have hx : x = q ++ x.drop q.length := by
    conv_lhs => rw [← List.take_append_drop q.length x]
    rw [htake]
  rw [hx]
  exact listStarts_append q _

lemma starts_drop_of_ge (q x y : List Char) (hge : x.length ≤ q.length)
    (h : listStarts q (x ++ y) = true) : listStarts (q.drop x.length) y = true := by
  obtain ⟨t, ht⟩ := exists_of_listStarts q (x ++ y) h
  have hy : y = q.drop x.length ++ t := by
    have h1 := congrArg (List.drop x.length) ht
    rw [List.drop_left x y] at h1
    rw [List.drop_append_of_le_length hge] at h1
    exact h1
  rw [hy]
  exact listStarts_append _ t

lemma thinkClose_border_free :
    ∀ m, m < 8 → 0 < m → listStarts (thinkClose.drop m) thinkClose = false := by decide

lemma no_early_close (r p : List Char) (hr : findSub thinkClose r = none) :
    ∀ i, i < (thinkOpen ++ r).length →
      listStarts thinkClose (((thinkOpen ++ r) ++ (thinkClose ++ p)).drop i) = false := by
  intro i hi
  by_contra hcon
  rw [Bool.not_eq_false] at hcon
  have hdrop : ((thinkOpen ++ r) ++ (thinkClose ++ p)).drop i =
      (thinkOpen ++ r).drop i ++ (thinkClose ++ p) :=
    List.drop_append_of_le_length (Nat.le_of_lt hi)
  rw [hdrop] at hcon
  by_cases hlen : 8 ≤ ((thinkOpen ++ r).drop i).length
  · have hq : listStarts thinkClose ((thinkOpen ++ r).drop i) = true :=
      starts_take_of_le _ _ _ (by simpa [thinkClose] using hlen) hcon
    by_cases hi7 : 7 ≤ i
    · have heq : (thinkOpen ++ r).drop i = r.drop (i - 7) := by
        have h7 : thinkOpen.length = 7 := rfl
        have hda := @List.drop_append _ thinkOpen r (i - 7)
        rw [show thinkOpen.length + (i - 7) = i from by rw [h7]; omega] at hda
        exact hda
      rw [heq] at hq
      have hnone := findSub_none_no_occ thinkClose r hr (i - 7)
      rw [hq] at hnone
      exact absurd hnone (by decide)
    · push_neg at hi7
      have heq : (thinkOpen ++ r).drop i = thinkOpen.drop i ++ r :=
        List.drop_append_of_le_length (by simp [thinkOpen]; omega)
      rw [heq] at hq
      interval_cases i <;>
        simp only [thinkOpen, thinkClose, List.drop_succ_cons, List.drop_zero,
          List.cons_append, List.nil_append] at hq <;>
        first
          | exact absurd (listStarts_head _ _ _ _ hq) (by decide)
          | exact absurd (listStarts_head _ _ _ _ (listStarts_tail _ _ _ _ hq)) (by decide)
  · have hm0 : 0 < ((thinkOpen ++ r).drop i).length := by
      simp only [List.length_drop]
      omega
    have hm8 : ((thinkOpen ++ r).drop i).length < 8 := by omega
    have hge : ((thinkOpen ++ r).drop i).length ≤ thinkClose.length := by
      have h8 : thinkClose.length = 8 := rfl
      rw [h8]
      omega
    have hend := starts_drop_of_ge thinkClose ((thinkOpen ++ r).drop i)
      (thinkClose ++ p) hge hcon
    have hshort : (thinkClose.drop ((thinkOpen ++ r).drop i).length).length ≤
        thinkClose.length := by
      simp [List.length_drop]
    have hq2 : listStarts (thinkClose.drop ((thinkOpen ++ r).drop i).length)
        thinkClose = true :=
      starts_take_of_le _ _ _ hshort hend
    have hbf := thinkClose_border_free ((thinkOpen ++ r).drop i).length hm8 hm0
    rw [hq2] at hbf
    exact absurd hbf (by decide)

lemma stripThink_of_find (content : List Char) (o e : Nat)
    (ho : findSub thinkOpen content = some o)
    (hc : findSub thinkClose content = some e) :
    stripThinkFallback content =
      (content.drop (e + thinkClose.length)).dropWhile (fun c => c == '\n') := by
  unfold stripThinkFallback
  rw [ho, hc]

lemma stripThink_eval (r p : List Char) (hr : findSub thinkClose r = none) :
    stripThinkFallback ((thinkOpen ++ r) ++ (thinkClose ++ p)) =
      p.dropWhile (fun c => c == '\n') := by
  have hopen : findSub thinkOpen ((thinkOpen ++ r) ++ (thinkClose ++ p)) = some 0 := by
    rw [List.append_assoc]
    exact findSub_self thinkOpen _ (by decide)
  have hclose : findSub thinkClose ((thinkOpen ++ r) ++ (thinkClose ++ p)) =
      some (thinkOpen ++ r).length := by
    rw [findSub_append_shift thinkClose (thinkClose ++ p) (thinkOpen ++ r)
      (no_early_close r p hr)]
    rw [findSub_self thinkClose p (by decide)]
    simp
  rw [stripThink_of_find _ 0 (thinkOpen ++ r).length hopen hclose]
  have hdrop : ((thinkOpen ++ r) ++ (thinkClose ++ p)).drop
      ((thinkOpen ++ r).length + thinkClose.length) = p := by
    rw [← List.append_assoc, ← List.length_append]
    exact List.drop_left _ _
  rw [hdrop]

/-- CLAIM C8: when a solver response's text carries its reasoning in a
leading well-formed `<think>`...`</think>` block (so the closing tag inside
is unambiguous) and the API delivered no separate reasoning channel, the
answer payload returned by `fw_basic_call` — in the non-streaming and in
the streaming path alike — is exactly the text after the closing tag with
leading newlines stripped; none of the reasoning block remains in it. -/
theorem think_block_stripped (r p : List Char) (hr : findSub thinkClose r = none) :
    fwVisibleContent [] (thinkOpen ++ r ++ thinkClose ++ p) =
      p.dropWhile (fun c => c == '\n') ∧
    fwStreamVisible [] [thinkOpen ++ r ++ thinkClose ++ p] =
      p.dropWhile (fun c => c == '\n') := by
  have hgroup : thinkOpen ++ r ++ thinkClose ++ p =
      (thinkOpen ++ r) ++ (thinkClose ++ p) := by
    simp [List.append_assoc]
  have hmain := stripThink_eval r p hr
  constructor
  · rw [fwVisibleContent, hgroup]
    simpa using hmain
  · rw [fwStreamVisible]
    simp only [List.flatten_cons, List.flatten_nil, List.append_nil, List.isEmpty_nil,
      if_true, hgroup]
    exact hmain

/-- Witness for C8: reasoning "a", payload "\nok". -/
theorem think_block_stripped_witness :
    fwVisibleContent [] (thinkOpen ++ ['a'] ++ thinkClose ++ ['\n', 'o', 'k']) =
      (['\n', 'o', 'k'] : List Char).dropWhile (fun c => c == '\n') ∧
    fwStreamVisible [] [thinkOpen ++ ['a'] ++ thinkClose ++ ['\n', 'o', 'k']] =
      (['\n', 'o', 'k'] : List Char).dropWhile (fun c => c == '\n') :=
  think_block_stripped ['a'] ['\n', 'o', 'k'] (by decide)
